import Mathlib

/-
Verification of the statistical monitoring core of the dev_k8s repository
(app/ml/anomaly_detector.py): SimpleAnomalyDetector, TimeSeriesPredictor
and HealthScorer.

Modelling conventions:
- Python floats are modelled as exact rationals (ℚ).
- Python dicts keyed by metric-name strings are modelled as association
  lists (insertion order preserved, assignment replaces in place, exactly
  as CPython dicts behave for the operations used by the source).
- collections.deque(maxlen=w) is modelled by dequeAppend: appending to a
  full deque drops the oldest element.
- numpy std is the square root of the population variance; since the
  square root of a rational is in general irrational, detect_anomaly
  carries the z-score as the pair (zNum, zDen) with semantic value
  zNum / sqrt zDen, and the comparisons of the source (std == 0,
  abs(z_score) > threshold, z_score > 0) are expressed by the equivalent
  rational comparisons (var = 0, threshold < 0 or
  (v - mean)^2 > threshold^2 * var, 0 < v - mean); the lemmas
  absZ_gt_iff, sqrtVar_eq_zero_iff and zSgn_iff prove these
  equivalences against the real-number formulas of the source.
- Explanation strings are modelled as tags (their float formatting is
  presentation only); the direction carried by the anomalous tag mirrors
  the source's "higher"/"lower".
- round(x, 2) is Python banker's rounding to two decimal places,
  modelled exactly on rationals by roundHalfEven.
-/

namespace DevK8s

/-- Lookup in an association list, first binding wins (dict access). -/
def alookup {α : Type} (k : String) : List (String × α) → Option α
  | [] => none
  | (k', v) :: t => if k' = k then some v else alookup k t

/-- Assignment d[k] = v on a Python dict: replace in place if the key is
present, otherwise append the new binding at the end. -/
def aset {α : Type} (k : String) (v : α) : List (String × α) → List (String × α)
  | [] => [(k, v)]
  | (k', v') :: t => if k' = k then (k, v) :: t else (k', v') :: aset k v t

/-- Append to a collections.deque with maxlen w: the new element goes to
the right, and anything beyond the w most recent elements is dropped from
the left. For w = 0 the deque stays empty, as in Python. -/
def dequeAppend (w : Nat) (l : List ℚ) (v : ℚ) : List ℚ :=
  (l ++ [v]).drop (l.length + 1 - w)

/-- np.mean of a history buffer. -/
def npMean (l : List ℚ) : ℚ := l.sum / l.length

/-- Population variance of a history buffer; np.std(l) = sqrt (npVar l). -/
def npVar (l : List ℚ) : ℚ := (l.map (fun x => (x - npMean l) ^ 2)).sum / l.length

/-- Explanation strings of detect_anomaly, modelled as tags. The
anomalous tag carries the direction: true stands for "higher", false for
"lower" (the source formats mean and std into the string as well; that
formatting is presentation only and is not modelled). -/
inductive Explanation
  | insufficientData
  | noVariation
  | anomalous (higher : Bool)
  | normalBehavior
deriving DecidableEq

/-- Result triple of detect_anomaly. The source's z_score float is the
real number zNum / sqrt zDen (zNum = current_value - mean, zDen = the
population variance, so sqrt zDen = np.std); the branches that return a
literal 0.0 z-score set zNum = 0, zDen = 1. -/
structure AnomalyResult where
  is_anomaly : Bool
  zNum : ℚ
  zDen : ℚ
  explanation : Explanation
deriving DecidableEq

/-- State of SimpleAnomalyDetector (app/ml/anomaly_detector.py, class
SimpleAnomalyDetector). -/
structure SimpleAnomalyDetector where
  window_size : Nat
  threshold : ℚ
  metrics_history : List (String × List ℚ)
  anomaly_count : Nat
deriving DecidableEq

namespace SimpleAnomalyDetector

/-- Constructor: three pre-registered metric buffers (source defaults
window_size=100, threshold=3.0). -/
def init (window_size : Nat) (threshold : ℚ) : SimpleAnomalyDetector :=
  { window_size := window_size
    threshold := threshold
    metrics_history :=
      [("response_time", []), ("memory_usage", []), ("error_rate", [])]
    anomaly_count := 0 }

/-- add_metric: appends value to the metric's bounded history, but only
if the metric name is already a key of metrics_history; unknown names
are silently ignored. -/
def add_metric (s : SimpleAnomalyDetector) (metric_name : String) (value : ℚ) :
    SimpleAnomalyDetector :=
  match alookup metric_name s.metrics_history with
  | some l =>
      { s with
          metrics_history :=
            aset metric_name (dequeAppend s.window_size l value) s.metrics_history }
  | none => s

/-- detect_anomaly: Z-score test over the current buffer contents. The
boolean test decide (threshold < 0 ∨ threshold^2 * var < (v - mean)^2)
is exactly the source's abs(z_score) > threshold, and
decide (0 < v - mean) is exactly the source's z_score > 0 — see
absZ_gt_iff and zSgn_iff. -/
def detect_anomaly (s : SimpleAnomalyDetector) (metric_name : String)
    (current_value : ℚ) : SimpleAnomalyDetector × AnomalyResult :=
  let history := (alookup metric_name s.metrics_history).getD []
  if history.length < 10 then
    (s, ⟨false, 0, 1, Explanation.insufficientData⟩)
  else
    let mean := npMean history
    let var := npVar history
    if var = 0 then
      (s, ⟨false, 0, 1, Explanation.noVariation⟩)
    else
      let is_anom : Bool :=
        decide (s.threshold < 0 ∨ s.threshold ^ 2 * var < (current_value - mean) ^ 2)
      if is_anom then
        ({ s with anomaly_count := s.anomaly_count + 1 },
         ⟨true, current_value - mean, var,
          Explanation.anomalous (decide (0 < current_value - mean))⟩)
      else
        (s, ⟨false, current_value - mean, var, Explanation.normalBehavior⟩)

/-- A sequence of detect_anomaly calls, keeping only the evolving state. -/
def runDetect (s : SimpleAnomalyDetector) (calls : List (String × ℚ)) :
    SimpleAnomalyDetector :=
  calls.foldl (fun st c => (detect_anomaly st c.1 c.2).1) s

/-- A sequence of add_metric calls on one metric. -/
def runAdd (s : SimpleAnomalyDetector) (metric_name : String) (vs : List ℚ) :
    SimpleAnomalyDetector :=
  vs.foldl (fun st v => add_metric st metric_name v) s

end SimpleAnomalyDetector

/-- State of TimeSeriesPredictor: smoothing factor alpha, the dict of
smoothed values (predictions) and the dict of last raw values. -/
structure TimeSeriesPredictor where
  alpha : ℚ
  predictions : List (String × ℚ)
  last_values : List (String × ℚ)
deriving DecidableEq

/-- Trend directions returned by detect_trend. -/
inductive Trend
  | stable
  | increasing
  | decreasing
deriving DecidableEq

namespace TimeSeriesPredictor

/-- Constructor (source default alpha=0.3). -/
def init (alpha : ℚ) : TimeSeriesPredictor :=
  { alpha := alpha, predictions := [], last_values := [] }

/-- update: first call for a metric stores the raw value in both dicts
and returns it; later calls compute
alpha * value + (1 - alpha) * last_values[metric] (the previous RAW
value, not the previous smoothed value), store value into last_values
and the computed number into predictions, and return it. The timestamp
argument is defaulted to datetime.now() when absent and then never
read, so it is ignored here. -/
def update (s : TimeSeriesPredictor) (metric_name : String) (value : ℚ)
    (_timestamp : Option ℚ) : TimeSeriesPredictor × ℚ :=
  match alookup metric_name s.last_values with
  | none =>
      ({ s with
          last_values := aset metric_name value s.last_values
          predictions := aset metric_name value s.predictions }, value)
  | some last =>
      let prediction := s.alpha * value + (1 - s.alpha) * last
      ({ s with
          last_values := aset metric_name value s.last_values
          predictions := aset metric_name prediction s.predictions }, prediction)

/-- predict_n_steps: empty for an unknown metric, otherwise the fixed
1%-per-step extrapolation current * (1 + 0.01 * i) for i in 0..n-1. -/
def predict_n_steps (s : TimeSeriesPredictor) (metric_name : String)
    (n_steps : Nat) : List ℚ :=
  match alookup metric_name s.predictions with
  | none => []
  | some current =>
      (List.range n_steps).map (fun (i : Nat) => current * (1 + 1 / 100 * (i : ℚ)))

/-- detect_trend: stable for an unknown metric; otherwise compares the
smoothed value (predictions[m]) against the last raw value
(last_values[m]). The source indexes predictions[metric_name] directly
after checking only last_values; a missing predictions key would raise
KeyError, modelled as none (unreachable from init through update). The
lookback argument is never read by the source. -/
def detect_trend (s : TimeSeriesPredictor) (metric_name : String)
    (_lookback : Nat) : Option (Trend × ℚ) :=
  match alookup metric_name s.last_values with
  | none => some (Trend.stable, 0)
  | some current =>
      match alookup metric_name s.predictions with
      | none => none
      | some predicted =>
          let diff := predicted - current
          if |diff| < 1 / 100 * current then some (Trend.stable, 0)
          else if 0 < diff then some (Trend.increasing, diff)
          else some (Trend.decreasing, diff)

end TimeSeriesPredictor

/-- The four-key metrics snapshot passed to HealthScorer.calculate_score.
The source reads each key with dict.get(key, 0); a missing key is
represented by the field holding 0. -/
structure MetricsSnapshot where
  error_rate : ℚ
  response_time : ℚ
  memory_usage : ℚ
  cpu_usage : ℚ
deriving DecidableEq

/-- Status labels of calculate_score. -/
inductive Status
  | excellent
  | good
  | warning
  | critical
deriving DecidableEq

/-- Issue strings of calculate_score, modelled as tags (the formatted
numeric parts are presentation only). -/
inductive Issue
  | highErrorRate
  | slowResponseTime
  | highMemoryUsage
  | highCpuUsage
deriving DecidableEq

/-- Result of calculate_score. -/
structure ScoreResult where
  score : ℚ
  status : Status
  issues : List Issue
deriving DecidableEq

/-- Round to the nearest integer, ties to the even integer (Python's
round on a number held exactly). -/
def roundHalfEven (q : ℚ) : ℤ :=
  if q - (⌊q⌋ : ℚ) < 1 / 2 then ⌊q⌋
  else if 1 / 2 < q - (⌊q⌋ : ℚ) then ⌊q⌋ + 1
  else if ⌊q⌋ % 2 = 0 then ⌊q⌋ else ⌊q⌋ + 1

/-- round(x, 2): banker's rounding to two decimal places. -/
def round2 (q : ℚ) : ℚ := (roundHalfEven (q * 100) : ℚ) / 100

namespace HealthScorer

/-- calculate_score: start at 100, subtract one capped deduction per
breached threshold, classify, round to 2 decimals (the status is
computed from the unrounded score, as in the source). -/
def calculate_score (metrics : MetricsSnapshot) : ScoreResult :=
  let d_err : ℚ :=
    if 1 / 20 < metrics.error_rate then min 40 (metrics.error_rate * 100) else 0
  let d_rt : ℚ :=
    if 1 / 5 < metrics.response_time then
      min 30 ((metrics.response_time - 1 / 5) * 100) else 0
  let d_mem : ℚ :=
    if 80 < metrics.memory_usage then min 20 ((metrics.memory_usage - 80) / 2) else 0
  let d_cpu : ℚ :=
    if 70 < metrics.cpu_usage then min 10 ((metrics.cpu_usage - 70) / 3) else 0
  let score : ℚ := 100 - d_err - d_rt - d_mem - d_cpu
  let issues : List Issue :=
    (if 1 / 20 < metrics.error_rate then [Issue.highErrorRate] else []) ++
    (if 1 / 5 < metrics.response_time then [Issue.slowResponseTime] else []) ++
    (if 80 < metrics.memory_usage then [Issue.highMemoryUsage] else []) ++
    (if 70 < metrics.cpu_usage then [Issue.highCpuUsage] else [])
  let status :=
    if 90 ≤ score then Status.excellent
    else if 75 ≤ score then Status.good
    else if 50 ≤ score then Status.warning
    else Status.critical
  ⟨round2 score, status, issues⟩

end HealthScorer

/- ------------------------------------------------------------------ -/
/- Theorems.                                                           -/
/- ------------------------------------------------------------------ -/

theorem alookup_aset_self {α : Type} (k : String) (v : α) (l : List (String × α)) :
    alookup k (aset k v l) = some v := by
  induction l with
  | nil => simp [alookup, aset]
  | cons h t ih =>
    obtain ⟨k', v'⟩ := h
    by_cases hk : k' = k <;> simp [alookup, aset, hk, ih]

theorem alookup_aset_ne {α : Type} (k k₀ : String) (v : α) (l : List (String × α))
    (h : k₀ ≠ k) : alookup k₀ (aset k v l) = alookup k₀ l := by
  have hne : ¬ k = k₀ := fun hh => h hh.symm
  induction l with
  | nil => simp [alookup, aset, hne]
  | cons hd t ih =>
    obtain ⟨k', v'⟩ := hd
    by_cases hk : k' = k
    · subst hk
      simp [alookup, aset, hne]
    · simp only [aset, if_neg hk, alookup]
      by_cases hk0 : k' = k₀ <;> simp [hk0, ih]

theorem dequeAppend_length (w : Nat) (l : List ℚ) (v : ℚ) :
    (dequeAppend w l v).length = min (l.length + 1) w := by
  simp [dequeAppend]
  omega

theorem foldl_dequeAppend (w : Nat) :
    ∀ (vs : List ℚ) (l₀ : List ℚ), l₀.length ≤ w →
      vs.foldl (dequeAppend w) l₀ = (l₀ ++ vs).drop (l₀.length + vs.length - w) := by
  intro vs
  induction vs with
  | nil =>
    intro l₀ h
    simp only [List.foldl_nil, List.length_nil, List.append_nil, Nat.add_zero]
    rw [Nat.sub_eq_zero_of_le h, List.drop_zero]
  | cons v vs ih =>
    intro l₀ h
    have hlen : (dequeAppend w l₀ v).length = min (l₀.length + 1) w :=
      dequeAppend_length w l₀ v
    have hle : (dequeAppend w l₀ v).length ≤ w := by omega
    have hstep := ih (dequeAppend w l₀ v) hle
    have hdrop : l₀.length + 1 - w ≤ (l₀ ++ [v]).length := by
      simp only [List.length_append, List.length_cons, List.length_nil]
      omega
    calc (v :: vs).foldl (dequeAppend w) l₀
        = vs.foldl (dequeAppend w) (dequeAppend w l₀ v) := by rfl
      _ = ((dequeAppend w l₀ v) ++ vs).drop ((dequeAppend w l₀ v).length + vs.length - w) :=
          hstep
      _ = (l₀ ++ v :: vs).drop (l₀.length + (v :: vs).length - w) := by
          rw [dequeAppend, ← List.drop_append_of_le_length hdrop]
          rw [List.drop_drop]
          have harr : l₀ ++ [v] ++ vs = l₀ ++ v :: vs := by simp
          rw [harr]
          congr 1
          simp only [List.length_drop, List.length_append, List.length_cons,
            List.length_nil]
          omega

theorem detect_anomaly_state (s : SimpleAnomalyDetector) (m : String) (v : ℚ) :
    (SimpleAnomalyDetector.detect_anomaly s m v).1
      = { s with anomaly_count := s.anomaly_count +
            (if (SimpleAnomalyDetector.detect_anomaly s m v).2.is_anomaly
             then 1 else 0) } := by
  unfold SimpleAnomalyDetector.detect_anomaly
  by_cases h1 : ((alookup m s.metrics_history).getD []).length < 10
  · simp [h1]
  · by_cases h2 : npVar ((alookup m s.metrics_history).getD []) = 0
    · simp [h1, h2]
    · by_cases h3 : s.threshold < 0 ∨
        s.threshold ^ 2 * npVar ((alookup m s.metrics_history).getD [])
          < (v - npMean ((alookup m s.metrics_history).getD [])) ^ 2
      · simp [h1, h2, h3]
      · simp [h1, h2, h3]

/-- C6: for every detector state, metric name and current value, if the
metric's history buffer (empty for an unknown metric, as dict.get
defaults to []) holds fewer than 10 samples, detect_anomaly returns the
state unchanged together with the sentinel triple
(false, z-score 0, "insufficient data"); no fault is raised (the
operation is a total function). -/
theorem detect_anomaly_cold_start (s : SimpleAnomalyDetector) (m : String) (v : ℚ)
    (h : ((alookup m s.metrics_history).getD []).length < 10) :
    SimpleAnomalyDetector.detect_anomaly s m v
      = (s, ⟨false, 0, 1, Explanation.insufficientData⟩) := by
  unfold SimpleAnomalyDetector.detect_anomaly
  simp [h]

/-- Witness for detect_anomaly_cold_start: a fresh detector has an empty
buffer for memory_usage, so detection at value 7 returns the sentinel. -/
theorem detect_anomaly_cold_start_witness :
    SimpleAnomalyDetector.detect_anomaly (SimpleAnomalyDetector.init 100 3)
        "memory_usage" 7
      = (SimpleAnomalyDetector.init 100 3,
         ⟨false, 0, 1, Explanation.insufficientData⟩) :=
  detect_anomaly_cold_start (SimpleAnomalyDetector.init 100 3) "memory_usage" 7
    (by decide)

/-- C8: the anomaly counter is process-lifetime monotone: a single
detect_anomaly call adds exactly 1 when the returned flag is set and 0
otherwise, and across every sequence of detect_anomaly calls the counter
is non-decreasing. Reads (get_statistics, predict_next_value) are pure
functions of the state in the source and in this model, so no read can
reset it. -/
theorem anomaly_count_monotone (s : SimpleAnomalyDetector) :
    (∀ (m : String) (v : ℚ),
      (SimpleAnomalyDetector.detect_anomaly s m v).1.anomaly_count
        = s.anomaly_count +
          (if (SimpleAnomalyDetector.detect_anomaly s m v).2.is_anomaly
           then 1 else 0)) ∧
    ∀ calls : List (String × ℚ),
      s.anomaly_count ≤ (SimpleAnomalyDetector.runDetect s calls).anomaly_count := by
  constructor
  · intro m v
    rw [detect_anomaly_state]
  · intro calls
    induction calls generalizing s with
    | nil => exact Nat.le_refl _
    | cons c t ih =>
      have h1 : s.anomaly_count
          ≤ (SimpleAnomalyDetector.detect_anomaly s c.1 c.2).1.anomaly_count := by
        rw [detect_anomaly_state]
        exact Nat.le_add_right _ _
      exact Nat.le_trans h1 (ih _)

/-- C9: detect_anomaly never touches the history buffers: the resulting
state is the input state except for the anomaly counter, which grows by
1 exactly when the returned flag is set — so when is_anomaly is false
the whole state (counter included) is unchanged. -/
theorem detect_anomaly_frame (s : SimpleAnomalyDetector) (m : String) (v : ℚ) :
    (SimpleAnomalyDetector.detect_anomaly s m v).1.metrics_history
        = s.metrics_history ∧
    (SimpleAnomalyDetector.detect_anomaly s m v).1
      = { s with anomaly_count := s.anomaly_count +
            (if (SimpleAnomalyDetector.detect_anomaly s m v).2.is_anomaly
             then 1 else 0) } := by
  refine ⟨?_, detect_anomaly_state s m v⟩
  rw [detect_anomaly_state s m v]

theorem runAdd_alookup (m : String) :
    ∀ (vs : List ℚ) (s : SimpleAnomalyDetector) (l : List ℚ),
      alookup m s.metrics_history = some l →
      alookup m (SimpleAnomalyDetector.runAdd s m vs).metrics_history
        = some (vs.foldl (dequeAppend s.window_size) l) := by
  intro vs
  induction vs with
  | nil =>
    intro s l h
    simpa [SimpleAnomalyDetector.runAdd] using h
  | cons v t ih =>
    intro s l h
    have hstep : SimpleAnomalyDetector.runAdd s m (v :: t)
        = SimpleAnomalyDetector.runAdd (SimpleAnomalyDetector.add_metric s m v) m t :=
      rfl
    have hadd : (SimpleAnomalyDetector.add_metric s m v).metrics_history
        = aset m (dequeAppend s.window_size l v) s.metrics_history := by
      unfold SimpleAnomalyDetector.add_metric
      rw [h]
    have hlook : alookup m (SimpleAnomalyDetector.add_metric s m v).metrics_history
        = some (dequeAppend s.window_size l v) := by
      rw [hadd]
      exact alookup_aset_self m _ s.metrics_history
    have hw : (SimpleAnomalyDetector.add_metric s m v).window_size = s.window_size := by
      unfold SimpleAnomalyDetector.add_metric
      rw [h]
    rw [hstep, ih _ _ hlook, hw]
    rfl

/-- C5: starting from a fresh detector with window size w, for a
registered metric m every sequence of addSample calls leaves the buffer
no longer than w, and after w + k calls the buffer holds exactly the
last w of the appended values in insertion order (FIFO eviction of the
oldest). -/
theorem window_fifo (w : Nat) (t : ℚ) (m : String)
    (hm : alookup m (SimpleAnomalyDetector.init w t).metrics_history = some []) :
    (∀ vs : List ℚ,
      ((alookup m (SimpleAnomalyDetector.runAdd
          (SimpleAnomalyDetector.init w t) m vs).metrics_history).getD []).length
        ≤ w) ∧
    ∀ (vs : List ℚ) (k : Nat), vs.length = w + k →
      alookup m (SimpleAnomalyDetector.runAdd
          (SimpleAnomalyDetector.init w t) m vs).metrics_history
        = some (vs.drop k) := by
  have key : ∀ vs : List ℚ,
      alookup m (SimpleAnomalyDetector.runAdd
          (SimpleAnomalyDetector.init w t) m vs).metrics_history
        = some (vs.drop (vs.length - w)) := by
    intro vs
    have h := runAdd_alookup m vs (SimpleAnomalyDetector.init w t) [] hm
    have hww : (SimpleAnomalyDetector.init w t).window_size = w := rfl
    rw [hww, foldl_dequeAppend w vs [] (by simp)] at h
    simpa using h
  constructor
  · intro vs
    rw [key vs]
    simp only [Option.getD_some, List.length_drop]
    omega
  · intro vs k hk
    rw [key vs]
    congr 2
    omega

/-- Witness for window_fifo: window size 2, three appends 1, 2, 3 to
response_time leave exactly the last two values. -/
theorem window_fifo_witness :
    alookup "response_time"
        (SimpleAnomalyDetector.runAdd (SimpleAnomalyDetector.init 2 3)
          "response_time" [1, 2, 3]).metrics_history
      = some [2, 3] :=
  (window_fifo 2 3 "response_time" (by decide)).2 [1, 2, 3] 1 (by decide)

/-- C2 counterexample: addSample on the never-seen metric name
"cpu_usage" does NOT create a buffer: the call is a silent no-op and
afterwards no buffer for that name exists (so it cannot contain the
value 5). This refutes the per-metric lazy creation claim. -/
theorem add_metric_unknown_is_noop :
    SimpleAnomalyDetector.add_metric (SimpleAnomalyDetector.init 100 3) "cpu_usage" 5
        = SimpleAnomalyDetector.init 100 3 ∧
    alookup "cpu_usage"
        (SimpleAnomalyDetector.add_metric (SimpleAnomalyDetector.init 100 3)
          "cpu_usage" 5).metrics_history
      = none := by decide

/-- C2 (amended): addSample never raises for any metric name (it is a
total function); for a metric name already registered in
metrics_history (the constructor registers response_time, memory_usage,
error_rate) it appends the value to that metric's bounded buffer, so
the value is in the buffer whenever the window size is at least 1; for
any other name the call is a silent no-op and no buffer is created. -/
theorem add_metric_amended (s : SimpleAnomalyDetector) (m : String) (v : ℚ) :
    (∀ l, alookup m s.metrics_history = some l →
      alookup m (SimpleAnomalyDetector.add_metric s m v).metrics_history
          = some (dequeAppend s.window_size l v) ∧
      (1 ≤ s.window_size → v ∈ dequeAppend s.window_size l v)) ∧
    (alookup m s.metrics_history = none →
      SimpleAnomalyDetector.add_metric s m v = s) := by
  constructor
  · intro l h
    constructor
    · unfold SimpleAnomalyDetector.add_metric
      rw [h]
      exact alookup_aset_self m _ s.metrics_history
    · intro hw
      unfold dequeAppend
      have hle : l.length + 1 - s.window_size ≤ l.length := by omega
      rw [List.drop_append_of_le_length hle]
      simp
  · intro h
    unfold SimpleAnomalyDetector.add_metric
    rw [h]

/-- Witness for add_metric_amended: appending 7 to the registered
error_rate buffer stores it; appending to an unregistered name is a
no-op. -/
theorem add_metric_amended_witness :
    (alookup "error_rate"
        (SimpleAnomalyDetector.add_metric (SimpleAnomalyDetector.init 100 3)
          "error_rate" 7).metrics_history
      = some (dequeAppend 100 [] 7) ∧
     (7 : ℚ) ∈ dequeAppend 100 [] 7) ∧
    SimpleAnomalyDetector.add_metric (SimpleAnomalyDetector.init 100 3) "nope" 7
      = SimpleAnomalyDetector.init 100 3 := by
  have h := add_metric_amended (SimpleAnomalyDetector.init 100 3) "error_rate" 7
  have h1 := h.1 [] (by decide)
  exact ⟨⟨h1.1, h1.2 (by decide)⟩,
    (add_metric_amended (SimpleAnomalyDetector.init 100 3) "nope" 7).2 (by decide)⟩

/-- C1: the claim (and the source's own "exponential smoothing"
documentation) says a subsequent update(m, value) returns
alpha * value + (1 - alpha) * previousSmoothed, previousSmoothed being
the smoothed value stored by the preceding update. The code instead
reads last_values[m], the previous RAW observation. With alpha = 0.3
and updates 0, 10, 10 on one metric: the second update stores smoothed
value 3, and the third update returns 0.3*10 + 0.7*10 = 10, while the
claimed formula gives 0.3*10 + 0.7*3 = 5.1. -/
theorem update_uses_raw_not_smoothed :
    (TimeSeriesPredictor.update
      (TimeSeriesPredictor.update
        (TimeSeriesPredictor.update (TimeSeriesPredictor.init (3 / 10))
          "m" 0 none).1 "m" 10 none).1 "m" 10 none).2 = 10 ∧
    (TimeSeriesPredictor.update
      (TimeSeriesPredictor.update (TimeSeriesPredictor.init (3 / 10))
        "m" 0 none).1 "m" 10 none).2 = 3 ∧
    (3 / 10 : ℚ) * 10 + (1 - 3 / 10) * 3 = 51 / 10 ∧
    (10 : ℚ) ≠ 51 / 10 := by
  have h1 : TimeSeriesPredictor.update (TimeSeriesPredictor.init (3 / 10))
      "m" 0 none = (⟨3 / 10, [("m", 0)], [("m", 0)]⟩, 0) := by
    norm_num [TimeSeriesPredictor.update, TimeSeriesPredictor.init, alookup, aset]
  have h2 : TimeSeriesPredictor.update
      (⟨3 / 10, [("m", 0)], [("m", 0)]⟩ : TimeSeriesPredictor) "m" 10 none
      = (⟨3 / 10, [("m", 3)], [("m", 10)]⟩, 3) := by
    norm_num [TimeSeriesPredictor.update, alookup, aset]
  have h3 : TimeSeriesPredictor.update
      (⟨3 / 10, [("m", 3)], [("m", 10)]⟩ : TimeSeriesPredictor) "m" 10 none
      = (⟨3 / 10, [("m", 10)], [("m", 10)]⟩, 10) := by
    norm_num [TimeSeriesPredictor.update, alookup, aset]
  rw [h1, h2, h3]
  norm_num

/-- C10: the optional timestamp argument of update has no effect: the
source defaults it to datetime.now() and never reads it again, so two
calls differing only in the timestamp return the same value and produce
the same state. -/
theorem update_ignores_timestamp (s : TimeSeriesPredictor) (m : String) (v : ℚ)
    (t₁ t₂ : Option ℚ) :
    TimeSeriesPredictor.update s m v t₁ = TimeSeriesPredictor.update s m v t₂ := rfl

/-- C4 counterexample: on a brand-new metric first updated with the
value 0, update returns 0 unchanged, but detect_trend before any second
update returns direction decreasing (slope 0.0), not stable: the source
test abs(diff) < 0.01 * current fails for current = 0 and diff = 0
falls through to the decreasing branch. -/
theorem detect_trend_fresh_zero_not_stable :
    (TimeSeriesPredictor.update (TimeSeriesPredictor.init (3 / 10))
        "m" 0 none).2 = 0 ∧
    TimeSeriesPredictor.detect_trend
        (TimeSeriesPredictor.update (TimeSeriesPredictor.init (3 / 10))
          "m" 0 none).1 "m" 20
      = some (Trend.decreasing, 0) ∧
    some ((Trend.decreasing : Trend), (0 : ℚ)) ≠ some (Trend.stable, (0 : ℚ)) := by
  have h1 : TimeSeriesPredictor.update (TimeSeriesPredictor.init (3 / 10))
      "m" 0 none = (⟨3 / 10, [("m", 0)], [("m", 0)]⟩, 0) := by
    norm_num [TimeSeriesPredictor.update, TimeSeriesPredictor.init, alookup, aset]
  rw [h1]
  refine ⟨rfl, ?_, by simp⟩
  norm_num [TimeSeriesPredictor.detect_trend, alookup]

/-- C4 (amended): for every predictor state, brand-new metric m (no
previous update) and value v, update returns v unchanged; and whenever
v is positive, detect_trend called before any second update returns
(stable, 0.0). (For v ≤ 0 the direction is decreasing with slope 0.0
instead.) -/
theorem update_fresh_then_trend (s : TimeSeriesPredictor) (m : String) (v : ℚ)
    (ts : Option ℚ) (h : alookup m s.last_values = none) :
    (TimeSeriesPredictor.update s m v ts).2 = v ∧
    (0 < v →
      TimeSeriesPredictor.detect_trend (TimeSeriesPredictor.update s m v ts).1 m 20
        = some (Trend.stable, 0)) := by
  unfold TimeSeriesPredictor.update
  rw [h]
  refine ⟨rfl, ?_⟩
  intro hv
  unfold TimeSeriesPredictor.detect_trend
  simp only [alookup_aset_self]
  have hdiff : v - v = (0 : ℚ) := by ring
  rw [hdiff, if_pos]
  rw [abs_zero]
  positivity

/-- Witness for update_fresh_then_trend at the fresh metric
response_time and value 1. -/
theorem update_fresh_then_trend_witness :
    (TimeSeriesPredictor.update (TimeSeriesPredictor.init (3 / 10))
        "response_time" 1 none).2 = 1 ∧
    TimeSeriesPredictor.detect_trend
        (TimeSeriesPredictor.update (TimeSeriesPredictor.init (3 / 10))
          "response_time" 1 none).1 "response_time" 20
      = some (Trend.stable, 0) := by
  have h := update_fresh_then_trend (TimeSeriesPredictor.init (3 / 10))
    "response_time" 1 none (by decide)
  exact ⟨h.1, h.2 (by norm_num)⟩

/-- C7: predict_n_steps on an unknown metric returns the empty
sequence; on a known metric with stored smoothed value c it returns
exactly n values whose i-th element is c * (1 + 0.01 * i). -/
theorem predict_n_steps_spec (s : TimeSeriesPredictor) (m : String) (n : Nat) :
    (alookup m s.predictions = none →
      TimeSeriesPredictor.predict_n_steps s m n = []) ∧
    ∀ c, alookup m s.predictions = some c →
      (TimeSeriesPredictor.predict_n_steps s m n).length = n ∧
      ∀ i, i < n →
        (TimeSeriesPredictor.predict_n_steps s m n).getD i 0
          = c * (1 + (i : ℚ) / 100) := by
  constructor
  · intro h
    unfold TimeSeriesPredictor.predict_n_steps
    rw [h]
  · intro c h
    have hr : TimeSeriesPredictor.predict_n_steps s m n
        = (List.range n).map (fun (i : Nat) => c * (1 + 1 / 100 * (i : ℚ))) := by
      unfold TimeSeriesPredictor.predict_n_steps
      rw [h]
    rw [hr]
    constructor
    · rw [List.length_map, List.length_range]
    · intro i hi
      rw [List.getD_eq_getElem?_getD, List.getElem?_map, List.getElem?_range hi]
      show c * (1 + 1 / 100 * (i : ℚ)) = c * (1 + (i : ℚ) / 100)
      ring

/-- Witness for predict_n_steps_spec: a predictor knowing only metric x
with smoothed value 100 yields [] for the unknown y, and the step-3
forecast for x is 103. -/
theorem predict_n_steps_spec_witness :
    TimeSeriesPredictor.predict_n_steps ⟨3 / 10, [("x", 100)], [("x", 100)]⟩ "y" 5
        = [] ∧
    (TimeSeriesPredictor.predict_n_steps ⟨3 / 10, [("x", 100)], [("x", 100)]⟩
        "x" 5).getD 3 0
      = 100 * (1 + (3 : ℚ) / 100) := by
  refine ⟨(predict_n_steps_spec ⟨3 / 10, [("x", 100)], [("x", 100)]⟩ "y" 5).1
      (by decide), ?_⟩
  have h := ((predict_n_steps_spec ⟨3 / 10, [("x", 100)], [("x", 100)]⟩ "x" 5).2
    100 (by decide)).2 3 (by decide)
  exact_mod_cast h

theorem roundHalfEven_bounds (q : ℚ) (a b : ℤ) (ha : (a : ℚ) ≤ q) (hb : q ≤ (b : ℚ)) :
    a ≤ roundHalfEven q ∧ roundHalfEven q ≤ b := by
  have hfa : a ≤ ⌊q⌋ := Int.le_floor.mpr ha
  have hfloor : (⌊q⌋ : ℚ) ≤ q := Int.floor_le q
  have hfb : ⌊q⌋ ≤ b := by
    have : (⌊q⌋ : ℚ) ≤ (b : ℚ) := le_trans hfloor hb
    exact_mod_cast this
  have hsucc : ¬ (q - (⌊q⌋ : ℚ) < 1 / 2) → ⌊q⌋ + 1 ≤ b := by
    intro hr
    have h2 : (⌊q⌋ : ℚ) + 1 / 2 ≤ q := by linarith [not_lt.mp hr]
    have h3 : (⌊q⌋ : ℚ) < (b : ℚ) := by linarith
    have h4 : ⌊q⌋ < b := by exact_mod_cast h3
    omega
  unfold roundHalfEven
  split_ifs with h1 h2 h3
  · exact ⟨hfa, hfb⟩
  · exact ⟨by omega, hsucc h1⟩
  · exact ⟨hfa, hfb⟩
  · exact ⟨by omega, hsucc h1⟩

theorem ded_bounds (c : Prop) [Decidable c] (x cap : ℚ) (hcap : 0 ≤ cap)
    (hx : c → 0 ≤ x) :
    0 ≤ (if c then min cap x else 0) ∧ (if c then min cap x else 0) ≤ cap := by
  split_ifs with h
  · exact ⟨le_min hcap (hx h), min_le_left _ _⟩
  · exact ⟨le_refl 0, hcap⟩

theorem score_in_range (metrics : MetricsSnapshot) :
    0 ≤ (HealthScorer.calculate_score metrics).score ∧
    (HealthScorer.calculate_score metrics).score ≤ 100 := by
  have he := ded_bounds (1 / 20 < metrics.error_rate)
    (metrics.error_rate * 100) 40 (by norm_num) (fun h => by linarith)
  have hrt := ded_bounds (1 / 5 < metrics.response_time)
    ((metrics.response_time - 1 / 5) * 100) 30 (by norm_num) (fun h => by linarith)
  have hmem := ded_bounds (80 < metrics.memory_usage)
    ((metrics.memory_usage - 80) / 2) 20 (by norm_num) (fun h => by linarith)
  have hcpu := ded_bounds (70 < metrics.cpu_usage)
    ((metrics.cpu_usage - 70) / 3) 10 (by norm_num) (fun h => by linarith)
  have hscore : (HealthScorer.calculate_score metrics).score
      = round2 (100
          - (if 1 / 20 < metrics.error_rate
             then min 40 (metrics.error_rate * 100) else 0)
          - (if 1 / 5 < metrics.response_time
             then min 30 ((metrics.response_time - 1 / 5) * 100) else 0)
          - (if 80 < metrics.memory_usage
             then min 20 ((metrics.memory_usage - 80) / 2) else 0)
          - (if 70 < metrics.cpu_usage
             then min 10 ((metrics.cpu_usage - 70) / 3) else 0)) := rfl
  have hr := roundHalfEven_bounds ((100
      - (if 1 / 20 < metrics.error_rate
         then min 40 (metrics.error_rate * 100) else 0)
      - (if 1 / 5 < metrics.response_time
         then min 30 ((metrics.response_time - 1 / 5) * 100) else 0)
      - (if 80 < metrics.memory_usage
         then min 20 ((metrics.memory_usage - 80) / 2) else 0)
      - (if 70 < metrics.cpu_usage
         then min 10 ((metrics.cpu_usage - 70) / 3) else 0)) * 100) 0 10000
    (by push_cast; linarith [he.1, he.2, hrt.1, hrt.2, hmem.1, hmem.2, hcpu.1, hcpu.2])
    (by push_cast; linarith [he.1, he.2, hrt.1, hrt.2, hmem.1, hmem.2, hcpu.1, hcpu.2])
  rw [hscore]
  unfold round2
  have h0 : (0 : ℚ) ≤ (roundHalfEven ((100
      - (if 1 / 20 < metrics.error_rate
         then min 40 (metrics.error_rate * 100) else 0)
      - (if 1 / 5 < metrics.response_time
         then min 30 ((metrics.response_time - 1 / 5) * 100) else 0)
      - (if 80 < metrics.memory_usage
         then min 20 ((metrics.memory_usage - 80) / 2) else 0)
      - (if 70 < metrics.cpu_usage
         then min 10 ((metrics.cpu_usage - 70) / 3) else 0)) * 100) : ℚ) := by
    exact_mod_cast hr.1
  have h1 : (roundHalfEven ((100
      - (if 1 / 20 < metrics.error_rate
         then min 40 (metrics.error_rate * 100) else 0)
      - (if 1 / 5 < metrics.response_time
         then min 30 ((metrics.response_time - 1 / 5) * 100) else 0)
      - (if 80 < metrics.memory_usage
         then min 20 ((metrics.memory_usage - 80) / 2) else 0)
      - (if 70 < metrics.cpu_usage
         then min 10 ((metrics.cpu_usage - 70) / 3) else 0)) * 100) : ℚ) ≤ 10000 := by
    exact_mod_cast hr.2
  constructor
  · linarith
  · linarith

/-- C3 counterexample: the claim asserts some MetricsSnapshot drives the
score strictly below 0; in fact no snapshot does, because the four
deduction caps 40 + 30 + 20 + 10 sum to exactly 100, so the summed
capped deductions never push the score past 0. -/
theorem no_snapshot_scores_below_zero :
    ¬ ∃ metrics : MetricsSnapshot,
        (HealthScorer.calculate_score metrics).score < 0 := by
  rintro ⟨m, hm⟩
  exact absurd (score_in_range m).1 (not_le.mpr hm)

/-- C3 (amended): for every MetricsSnapshot, calculateScore returns a
score in [0, 100]: each deduction is individually capped and
non-negative, the caps sum to exactly 100, and no lower floor is needed
because the arithmetic can never go below 0. The observable range is
[0, 100], not "below 0". -/
theorem calculate_score_range (metrics : MetricsSnapshot) :
    0 ≤ (HealthScorer.calculate_score metrics).score ∧
    (HealthScorer.calculate_score metrics).score ≤ 100 :=
  score_in_range metrics

theorem npVar_nonneg (l : List ℚ) : 0 ≤ npVar l := by
  unfold npVar
  apply div_nonneg
  · apply List.sum_nonneg
    intro x hx
    simp only [List.mem_map] at hx
    obtain ⟨y, _, rfl⟩ := hx
    positivity
  · exact_mod_cast Nat.zero_le _

/-- Faithfulness of the std == 0 test: np.std = sqrt of the population
variance vanishes exactly when the variance does, so detect_anomaly may
branch on var = 0 in place of the source's std == 0. -/
theorem sqrtVar_eq_zero_iff (d : ℚ) (hd : 0 ≤ d) :
    Real.sqrt (d : ℝ) = 0 ↔ d = 0 := by
  rw [Real.sqrt_eq_zero']
  constructor
  · intro h
    have hdr : ((d : ℝ)) = 0 := le_antisymm h (by exact_mod_cast hd)
    exact_mod_cast hdr
  · intro h
    rw [h]
    simp

/-- Faithfulness of the anomaly test: with positive variance d and
z = num / sqrt d, the source's threshold < abs(z) holds exactly when
threshold < 0 or threshold^2 * d < num^2 — the rational comparison used
by detect_anomaly. -/
theorem absZ_gt_iff (t num d : ℚ) (hd : 0 < d) :
    (t : ℝ) < |(num : ℝ)| / Real.sqrt (d : ℝ) ↔
      (t < 0 ∨ t ^ 2 * d < num ^ 2) := by
  have hdR : (0 : ℝ) < (d : ℝ) := by exact_mod_cast hd
  have hs : 0 < Real.sqrt (d : ℝ) := Real.sqrt_pos.mpr hdR
  have hsq : Real.sqrt (d : ℝ) ^ 2 = (d : ℝ) := Real.sq_sqrt hdR.le
  have main : (t : ℝ) * Real.sqrt (d : ℝ) < |(num : ℝ)| ↔
      ((t : ℝ) < 0 ∨ (t : ℝ) ^ 2 * (d : ℝ) < (num : ℝ) ^ 2) := by
    constructor
    · intro h
      by_cases ht : (t : ℝ) < 0
      · exact Or.inl ht
      · right
        have ht0 : (0 : ℝ) ≤ (t : ℝ) := not_lt.mp ht
        have h1 : 0 ≤ (t : ℝ) * Real.sqrt (d : ℝ) := mul_nonneg ht0 hs.le
        have key : 0 < (|(num : ℝ)| - (t : ℝ) * Real.sqrt (d : ℝ))
            * (|(num : ℝ)| + (t : ℝ) * Real.sqrt (d : ℝ)) :=
          mul_pos (by linarith) (by linarith)
        have expand : (|(num : ℝ)| - (t : ℝ) * Real.sqrt (d : ℝ))
            * (|(num : ℝ)| + (t : ℝ) * Real.sqrt (d : ℝ))
            = (num : ℝ) ^ 2 - (t : ℝ) ^ 2 * (d : ℝ) := by
          calc (|(num : ℝ)| - (t : ℝ) * Real.sqrt (d : ℝ))
              * (|(num : ℝ)| + (t : ℝ) * Real.sqrt (d : ℝ))
              = |(num : ℝ)| ^ 2 - ((t : ℝ) * Real.sqrt (d : ℝ)) ^ 2 := by ring
            _ = (num : ℝ) ^ 2 - (t : ℝ) ^ 2 * (d : ℝ) := by
                rw [sq_abs, mul_pow, hsq]
        linarith [key, expand.symm.le]
    · rintro (ht | hlt)
      · have hneg : (t : ℝ) * Real.sqrt (d : ℝ) < 0 := mul_neg_of_neg_of_pos ht hs
        linarith [abs_nonneg (num : ℝ)]
      · by_contra hcon
        have hge : |(num : ℝ)| ≤ (t : ℝ) * Real.sqrt (d : ℝ) := not_lt.mp hcon
        have habs0 : (0 : ℝ) ≤ |(num : ℝ)| := abs_nonneg _
        have hsq2 : |(num : ℝ)| ^ 2 ≤ ((t : ℝ) * Real.sqrt (d : ℝ)) ^ 2 := by
          nlinarith
        rw [sq_abs, mul_pow, hsq] at hsq2
        linarith
  rw [lt_div_iff₀ hs, main]
  constructor
  · rintro (h | h)
    · exact Or.inl (by exact_mod_cast h)
    · exact Or.inr (by exact_mod_cast h)
  · rintro (h | h)
    · exact Or.inl (by exact_mod_cast h)
    · exact Or.inr (by exact_mod_cast h)

/-- Faithfulness of the direction test: with positive variance d, the
source's z_score > 0 holds exactly when num = current_value - mean is
positive — the rational comparison used for the "higher"/"lower"
direction tag. -/
theorem zSgn_iff (num d : ℚ) (hd : 0 < d) :
    (0 : ℝ) < (num : ℝ) / Real.sqrt (d : ℝ) ↔ 0 < num := by
  have hs : 0 < Real.sqrt (d : ℝ) := Real.sqrt_pos.mpr (by exact_mod_cast hd)
  rw [lt_div_iff₀ hs, zero_mul]
  exact Rat.cast_pos

end DevK8s
